import Mathlib

/-!
Verification of the AutoScraper repository (src/parser.py, src/models.py,
src/scraper.py, src/scheduler.py) against its natural-language specification.

The Python sources are shallowly embedded: pure functions become Lean
functions, `None`-returning / exception-raising code returns `Option` /
`Except`, JSON values become the inductive `JVal`, and network / database
effects are parameters (oracles) of the embedded pipeline functions.
Machine floats appear only as the retry backoff 1.0, 2.0, ..., 20.0, whose
values are exact small integers, so they are modelled as `Nat`.
-/

/- ### Generic character and string helpers (Python `str` / `re` semantics) -/

/-- Lower-casing as used by `str.lower` / `re.IGNORECASE` on the ASCII and
Ukrainian Cyrillic letters occurring in this codebase. -/
def lowerChar (c : Char) : Char :=
  if 'A' ≤ c ∧ c ≤ 'Z' then Char.ofNat (c.toNat + 32)
  else if 'А' ≤ c ∧ c ≤ 'Я' then Char.ofNat (c.toNat + 32)
  else if c = 'Ё' then 'ё'
  else if c = 'І' then 'і'
  else if c = 'Ї' then 'ї'
  else if c = 'Є' then 'є'
  else c

/-- Python `\s` whitespace (ASCII part). -/
def isSpacePy (c : Char) : Bool :=
  c = ' ' || c = '\t' || c = '\n' || c = '\r' || c.toNat = 11 || c.toNat = 12

/-- Python `\w` word characters for the alphabets used by the regexes of
parser.py: ASCII alphanumerics, underscore, and Ukrainian Cyrillic letters. -/
def isWordPy (c : Char) : Bool :=
  c.isAlphanum || c = '_' || ('А' ≤ c ∧ c ≤ 'я') ||
    c = 'ё' || c = 'Ё' || c = 'і' || c = 'І' || c = 'ї' || c = 'Ї' || c = 'є' || c = 'Є'

/-- First index (counting from `i`) at which `pat` occurs in `hay`,
modelling Python `str.find`. -/
def findSubAux (pat : List Char) : List Char → Nat → Option Nat
  | [], i => if pat = [] then some i else none
  | c :: rest, i =>
      if pat.isPrefixOf (c :: rest) then some i else findSubAux pat rest (i + 1)

/-- `hay.find(pat)` (Python), as an `Option`. -/
def strFind (hay pat : String) : Option Nat :=
  findSubAux pat.toList hay.toList 0

/-- `hay.find(pat, start)` (Python), as an `Option`. -/
def strFindFrom (hay pat : String) (start : Nat) : Option Nat :=
  (findSubAux pat.toList (hay.toList.drop start) 0).map (· + start)

/-- `pat in hay` (Python substring test). -/
def strContains (hay pat : String) : Bool :=
  (strFind hay pat).isSome

/-- Python slice `hay[start:stop]`. -/
def strSlice (hay : String) (start stop : Nat) : String :=
  ⟨(hay.toList.drop start).take (stop - start)⟩

/-- Number of (possibly overlapping) positions where `pat` occurs in `hay`. -/
def countOccur (pat : String) (hay : String) : Nat :=
  go pat.toList hay.toList
where
  go (p : List Char) : List Char → Nat
    | [] => 0
    | c :: rest => (if p.isPrefixOf (c :: rest) then 1 else 0) + go p rest

/-- Python `s.strip()` (over the whitespace set of `isSpacePy`). -/
def pyStrip (s : String) : String :=
  ⟨((s.toList.dropWhile isSpacePy).reverse.dropWhile isSpacePy).reverse⟩

/-- `re.sub(r"\D", "", s)`: keep only the digits of `s`. -/
def digitsOf (s : String) : String :=
  ⟨s.toList.filter Char.isDigit⟩

/-- Numeric value of a digit character. -/
def digitVal (c : Char) : Nat := c.toNat - 48

/-- Value of a list of decimal digit characters. -/
def digitsVal (cs : List Char) : Nat :=
  cs.foldl (fun a c => a * 10 + digitVal c) 0

/-- Python `int(s)` on a string: optional sign followed by decimal digits,
`None` (a `ValueError`) otherwise. -/
def pyIntAux : List Char → Option Int
  | [] => none
  | c :: rest =>
    if c = '-' then
      if rest ≠ [] ∧ rest.all Char.isDigit then some (-(digitsVal rest : Int)) else none
    else if c = '+' then
      if rest ≠ [] ∧ rest.all Char.isDigit then some ((digitsVal rest : Int)) else none
    else if (c :: rest).all Char.isDigit then some ((digitsVal (c :: rest) : Int)) else none

def pyInt (s : String) : Option Int := pyIntAux s.toList

/-- Decimal digits of `n`, accumulator form; `fuel` bounds the recursion and
any `fuel ≥ n` is enough. -/
def natReprAux : Nat → Nat → List Char → List Char
  | 0, _, acc => acc
  | fuel + 1, n, acc =>
      if n = 0 then acc
      else natReprAux fuel (n / 10) (Nat.digitChar (n % 10) :: acc)

/-- Decimal rendering of a natural number, modelling Python `str(n)` /
f-string interpolation for `n ≥ 0`. -/
def natRepr (n : Nat) : String :=
  if n = 0 then "0" else ⟨natReprAux n n []⟩

/-- Decimal rendering of an integer, modelling Python `str(n)`. -/
def intRepr (n : Int) : String :=
  if n < 0 then "-" ++ natRepr n.natAbs else natRepr n.natAbs

/- ### JSON values (the payload tree produced by `json.loads`) -/

/-- A parsed JSON value.  Numbers are restricted to integers: the payload
fields this development reasons about are identifiers and counts. -/
inductive JVal where
  | null
  | bool (b : Bool)
  | num (n : Int)
  | str (s : String)
  | arr (xs : List JVal)
  | obj (kvs : List (String × JVal))

/-- Python truthiness of a JSON value. -/
def JVal.truthy : JVal → Bool
  | .null => false
  | .bool b => b
  | .num n => n ≠ 0
  | .str s => s ≠ ""
  | .arr xs => !xs.isEmpty
  | .obj kvs => !kvs.isEmpty

/-- `d.get(key)` on a dict (`None`, i.e. `.null`, when absent or not a dict). -/
def jGet (v : JVal) (key : String) : JVal :=
  match v with
  | .obj kvs =>
    match kvs.find? (fun kv => kv.1 == key) with
    | some kv => kv.2
    | none => .null
  | _ => .null

/-- `_as_dict` from parser.py: the value if it is a dict, else `{}`. -/
def asDict (v : JVal) : JVal :=
  match v with
  | .obj _ => v
  | _ => .obj []

/-- Python `a or b`. -/
def pyOr (a b : JVal) : JVal := if a.truthy then a else b

/-- Lift an optional string into a Python value (`None` ↦ `null`). -/
def optStrToVal : Option String → JVal
  | none => .null
  | some s => .str s

/-- Python `str(v)` for the scalar values reaching it in this codebase;
containers render in a fixed simplified form. -/
def pyStr : JVal → String
  | .null => "None"
  | .bool b => if b then "True" else "False"
  | .num n => intRepr n
  | .str s => s
  | .arr _ => "[]"
  | .obj _ => "\x7b\x7d"

/- ### `_deep_find` from parser.py -/

mutual

/-- `_deep_find(data, key)` from parser.py: for a dict, walk the items in
insertion order, yielding the value when the key matches and then
immediately recursing into that value; for a list, recurse into the
elements in order. -/
def deepFind (key : String) : JVal → List JVal
  | .obj kvs => deepFindKvs key kvs
  | .arr xs => deepFindArr key xs
  | _ => []

def deepFindKvs (key : String) : List (String × JVal) → List JVal
  | [] => []
  | (k, v) :: rest =>
      (if k = key then [v] else []) ++ deepFind key v ++ deepFindKvs key rest

def deepFindArr (key : String) : List JVal → List JVal
  | [] => []
  | x :: rest => deepFind key x ++ deepFindArr key rest

end

mutual

/-- Modelled from the spec: deep search visits a mapping's own matching keys
(in insertion order) before descending into any of that mapping's nested
containers.  Used only to compare against `deepFind`, the function the
source actually implements. -/
def specDeepFind (key : String) : JVal → List JVal
  | .obj kvs => (kvs.filter (fun kv => kv.1 == key)).map (·.2) ++ specDeepFindKvs key kvs
  | .arr xs => specDeepFindArr key xs
  | _ => []

def specDeepFindKvs (key : String) : List (String × JVal) → List JVal
  | [] => []
  | (_, v) :: rest => specDeepFind key v ++ specDeepFindKvs key rest

def specDeepFindArr (key : String) : List JVal → List JVal
  | [] => []
  | x :: rest => specDeepFind key x ++ specDeepFindArr key rest

end

/-- `_first_str(values)` from parser.py: first non-empty string, stripped. -/
def firstStr : List JVal → Option String
  | [] => none
  | .str s :: rest => if pyStrip s ≠ "" then some (pyStrip s) else firstStr rest
  | _ :: rest => firstStr rest

/-- `_first_int(values)` from parser.py: first int-like value.  A Python
`bool` is an `int` (`True == 1`), hence the `.bool` case. -/
def firstInt : List JVal → Option Int
  | [] => none
  | .num n :: _ => some n
  | .bool b :: _ => some (if b then 1 else 0)
  | .str s :: rest =>
      if digitsOf s ≠ "" then some ((digitsVal (digitsOf s).toList : Int)) else firstInt rest
  | _ :: rest => firstInt rest

/- ### `_find_json_end` from parser.py (the balanced-brace scanner) -/

/-- Loop body of `_find_json_end`: `idx` is the absolute index of the head
character, `depth` the current brace nesting (a Python int, so `Int`),
`inString`/`escape` the string-literal state. -/
def findJsonEndAux : List Char → Nat → Int → Bool → Bool → Option Nat
  | [], _, _, _, _ => none
  | ch :: rest, idx, depth, inString, escape =>
    if inString then
      if escape then findJsonEndAux rest (idx + 1) depth true false
      else if ch = '\\' then findJsonEndAux rest (idx + 1) depth true true
      else if ch = '"' then findJsonEndAux rest (idx + 1) depth false false
      else findJsonEndAux rest (idx + 1) depth true false
    else if ch = '"' then findJsonEndAux rest (idx + 1) depth true false
    else if ch = '\x7b' then findJsonEndAux rest (idx + 1) (depth + 1) false false
    else if ch = '\x7d' then
      if depth - 1 = 0 then some (idx + 1)
      else findJsonEndAux rest (idx + 1) (depth - 1) false false
    else findJsonEndAux rest (idx + 1) depth false false

/-- `_find_json_end(text, start)` from parser.py. -/
def findJsonEnd (text : String) (start : Nat) : Option Nat :=
  findJsonEndAux (text.toList.drop start) start 0 false false

/- ### `json.loads` (restricted to the JSON subset this development needs) -/

def isJsonWs (c : Char) : Bool := c = ' ' || c = '\t' || c = '\n' || c = '\r'

def hexVal (c : Char) : Option Nat :=
  if '0' ≤ c ∧ c ≤ '9' then some (c.toNat - 48)
  else if 'a' ≤ c ∧ c ≤ 'f' then some (c.toNat - 87)
  else if 'A' ≤ c ∧ c ≤ 'F' then some (c.toNat - 55)
  else none

/-- JSON string body parser (after the opening quote); surrogate pairs are
not combined, each `\uXXXX` maps to one scalar. -/
def jsonStrAux : List Char → List Char → Option (String × List Char)
  | [], _ => none
  | '"' :: rest, acc => some (⟨acc.reverse⟩, rest)
  | '\\' :: '"' :: rest, acc => jsonStrAux rest ('"' :: acc)
  | '\\' :: '\\' :: rest, acc => jsonStrAux rest ('\\' :: acc)
  | '\\' :: '/' :: rest, acc => jsonStrAux rest ('/' :: acc)
  | '\\' :: 'b' :: rest, acc => jsonStrAux rest ('\x08' :: acc)
  | '\\' :: 'f' :: rest, acc => jsonStrAux rest ('\x0c' :: acc)
  | '\\' :: 'n' :: rest, acc => jsonStrAux rest ('\n' :: acc)
  | '\\' :: 'r' :: rest, acc => jsonStrAux rest ('\r' :: acc)
  | '\\' :: 't' :: rest, acc => jsonStrAux rest ('\t' :: acc)
  | '\\' :: 'u' :: h1 :: h2 :: h3 :: h4 :: rest, acc =>
      (match hexVal h1, hexVal h2, hexVal h3, hexVal h4 with
       | some a, some b, some c, some d =>
           jsonStrAux rest (Char.ofNat (((a * 16 + b) * 16 + c) * 16 + d) :: acc)
       | _, _, _, _ => none)
  | '\\' :: _, _ => none
  | c :: rest, acc => jsonStrAux rest (c :: acc)

/-- JSON number parser, restricted to integers (a fractional or exponent
part makes the whole load fail in this model). -/
def jsonNumNat (cs : List Char) : Option (Nat × List Char) :=
  let ds := cs.takeWhile Char.isDigit
  let rest := cs.dropWhile Char.isDigit
  if ds.isEmpty then none
  else
    match rest with
    | '.' :: _ => none
    | 'e' :: _ => none
    | 'E' :: _ => none
    | _ => some (digitsVal ds, rest)

def jsonNum : List Char → Option (Int × List Char)
  | '-' :: rest => (jsonNumNat rest).map (fun p => (-(p.1 : Int), p.2))
  | cs => (jsonNumNat cs).map (fun p => ((p.1 : Int), p.2))

mutual

def jsonVal : Nat → List Char → Option (JVal × List Char)
  | 0, _ => none
  | fuel + 1, cs =>
    match cs.dropWhile isJsonWs with
    | 'n' :: 'u' :: 'l' :: 'l' :: rest => some (.null, rest)
    | 't' :: 'r' :: 'u' :: 'e' :: rest => some (.bool true, rest)
    | 'f' :: 'a' :: 'l' :: 's' :: 'e' :: rest => some (.bool false, rest)
    | '"' :: rest => (jsonStrAux rest []).map (fun p => (.str p.1, p.2))
    | '[' :: rest =>
      (match rest.dropWhile isJsonWs with
       | ']' :: r2 => some (.arr [], r2)
       | _ => jsonArrItems fuel rest [])
    | '\x7b' :: rest =>
      (match rest.dropWhile isJsonWs with
       | '\x7d' :: r2 => some (.obj [], r2)
       | _ => jsonObjItems fuel rest [])
    | cs2 => (jsonNum cs2).map (fun p => (.num p.1, p.2))

def jsonArrItems : Nat → List Char → List JVal → Option (JVal × List Char)
  | 0, _, _ => none
  | fuel + 1, cs, acc =>
    match jsonVal fuel cs with
    | none => none
    | some (v, rest) =>
      match rest.dropWhile isJsonWs with
      | ',' :: r2 => jsonArrItems fuel r2 (v :: acc)
      | ']' :: r2 => some (.arr (v :: acc).reverse, r2)
      | _ => none

def jsonObjItems : Nat → List Char → List (String × JVal) → Option (JVal × List Char)
  | 0, _, _ => none
  | fuel + 1, cs, acc =>
    match cs.dropWhile isJsonWs with
    | '"' :: rest =>
      (match jsonStrAux rest [] with
       | none => none
       | some (k, r1) =>
         match r1.dropWhile isJsonWs with
         | ':' :: r2 =>
           (match jsonVal fuel r2 with
            | none => none
            | some (v, r3) =>
              match r3.dropWhile isJsonWs with
              | ',' :: r4 => jsonObjItems fuel r4 ((k, v) :: acc)
              | '\x7d' :: r4 => some (.obj ((k, v) :: acc).reverse, r4)
              | _ => none)
         | _ => none)
    | _ => none

end

/-- `json.loads`, requiring the whole input to be consumed. -/
def jsonLoads (s : String) : Option JVal :=
  match jsonVal (s.length + 1) s.toList with
  | some (v, rest) => if (rest.dropWhile isJsonWs).isEmpty then some v else none
  | none => none

/- ### `extract_pinia_payload` from parser.py -/

def PINIA_MARKER : String := "window.__PINIA__"

/-- `extract_pinia_payload(html)` from parser.py: locate the marker, scan
the balanced JSON object after it, parse it; any failure yields `None`. -/
def extractPiniaPayload (html : String) : Option JVal :=
  match strFind html PINIA_MARKER with
  | none => none
  | some idx =>
    match strFindFrom html "\x7b" idx with
    | none => none
    | some start =>
      match findJsonEnd html start with
      | none => none
      | some stop => jsonLoads (strSlice html start stop)

/- ### Markup scanners: the compiled regexes of parser.py -/

/-- `html.unescape` restricted to the named entities relevant here. -/
def huAux : List Char → List Char
  | '&' :: 'a' :: 'm' :: 'p' :: ';' :: rest => '&' :: huAux rest
  | '&' :: 'l' :: 't' :: ';' :: rest => '<' :: huAux rest
  | '&' :: 'g' :: 't' :: ';' :: rest => '>' :: huAux rest
  | '&' :: 'q' :: 'u' :: 'o' :: 't' :: ';' :: rest => '"' :: huAux rest
  | '&' :: '#' :: '3' :: '9' :: ';' :: rest => '\'' :: huAux rest
  | c :: rest => c :: huAux rest
  | [] => []

def htmlUnescape (s : String) : String := ⟨huAux s.toList⟩

/-- Case-insensitively consume `pat` from the front of `cs`. -/
def ciDrop : List Char → List Char → Option (List Char)
  | [], cs => some cs
  | _ :: _, [] => none
  | p :: ps, c :: rest => if lowerChar c = lowerChar p then ciDrop ps rest else none

/-- `\s+`: at least one whitespace character, consumed greedily. -/
def dropWs1 : List Char → Option (List Char)
  | c :: rest => if isSpacePy c then some (rest.dropWhile isSpacePy) else none
  | [] => none

/-- Non-greedy capture up to (excluding) the character `stop`. -/
def captureUntil (stop : Char) : List Char → Option (List Char)
  | [] => none
  | c :: rest => if c = stop then some [] else (captureUntil stop rest).map (c :: ·)

/-- Non-greedy capture up to a case-insensitive occurrence of `pat`. -/
def captureUntilCi (pat : List Char) : List Char → Option (List Char)
  | [] => none
  | c :: rest =>
      if (ciDrop pat (c :: rest)).isSome then some []
      else (captureUntilCi pat rest).map (c :: ·)

/-- `re.search` driver: try the matcher at each start position, leftmost
match first. -/
def scanPositions (f : List Char → Option α) : List Char → Option α
  | [] => f []
  | c :: rest =>
    match f (c :: rest) with
    | some r => some r
    | none => scanPositions f rest

/-- `re.search` driver for patterns with a `\b` on the left: also tracks the
character before the current position. -/
def scanWithPrev (f : Option Char → List Char → Option α) : Option Char → List Char → Option α
  | _, [] => none
  | prev, c :: rest =>
    match f prev (c :: rest) with
    | some r => some r
    | none => scanWithPrev f (some c) rest

def boundaryBefore : Option Char → Bool
  | none => true
  | some p => !isWordPy p

def boundaryAfter : List Char → Bool
  | [] => true
  | c :: _ => !isWordPy c

/-- `TITLE_RE` body at one position: `<title>(.*?)</title>`, CI, DOTALL. -/
def matchTitleAt (cs : List Char) : Option (List Char) :=
  match ciDrop "<title>".toList cs with
  | none => none
  | some rest => captureUntilCi "</title>".toList rest

/-- `_parse_title(html_text)` from parser.py. -/
def parse_title (htmlText : String) : String :=
  match scanPositions matchTitleAt htmlText.toList with
  | some cap => pyStrip (htmlUnescape ⟨cap⟩)
  | none => ""

/-- `META_DESC_RE` / `OG_IMAGE_RE` body at one position:
`<meta\s+ATTR\s+content="(.*?)"`, CI, DOTALL. -/
def matchMetaContentAt (attr : String) (cs : List Char) : Option (List Char) := do
  let r1 ← ciDrop "<meta".toList cs
  let r2 ← dropWs1 r1
  let r3 ← ciDrop attr.toList r2
  let r4 ← dropWs1 r3
  let r5 ← ciDrop "content=\"".toList r4
  captureUntil '"' r5

/-- `_parse_meta_description(html_text)` from parser.py. -/
def parse_meta_description (htmlText : String) : String :=
  match scanPositions (matchMetaContentAt "name=\"description\"") htmlText.toList with
  | some cap => pyStrip (htmlUnescape ⟨cap⟩)
  | none => ""

/-- `_parse_og_image(html_text)` from parser.py. -/
def parse_og_image (htmlText : String) : String :=
  match scanPositions (matchMetaContentAt "property=\"og:image\"") htmlText.toList with
  | some cap => pyStrip (htmlUnescape ⟨cap⟩)
  | none => ""

/-- `\d+` with its maximal run (digits cannot back off into `\s`/literals
in the patterns below, so maximal munch is exact). -/
def takeDigits1 : List Char → Option (List Char × List Char)
  | c :: rest =>
      if c.isDigit then some ((c :: rest).takeWhile Char.isDigit, (c :: rest).dropWhile Char.isDigit)
      else none
  | [] => none

/-- `CAROUSEL_COUNT_RE` body at one position: `Item\s+\d+\s+of\s+(\d+)`, CI. -/
def matchCarouselAt (cs : List Char) : Option Nat := do
  let r1 ← ciDrop "item".toList cs
  let r2 ← dropWs1 r1
  let (_, r3) ← takeDigits1 r2
  let r4 ← dropWs1 r3
  let r5 ← ciDrop "of".toList r4
  let r6 ← dropWs1 r5
  let (ds, _) ← takeDigits1 r6
  some (digitsVal ds)

/-- First `CAROUSEL_COUNT_RE` match in the raw page text. -/
def carouselCount (htmlText : String) : Option Nat :=
  scanPositions matchCarouselAt htmlText.toList

/-- Tail check of `PRICE_RE`: `\s*\$` after the captured group. -/
def priceEnd (first : Char) (accRev : List Char) (cs : List Char) : Option (List Char) :=
  match cs.dropWhile isSpacePy with
  | '$' :: _ => some (first :: accRev.reverse)
  | _ => none

/-- Greedy-with-backtracking `[\d\s]{1,9}` of `PRICE_RE`. -/
def priceLoop (first : Char) : List Char → Nat → List Char → Option (List Char)
  | cs, 0, accRev => if accRev.isEmpty then none else priceEnd first accRev cs
  | [], _ + 1, accRev => if accRev.isEmpty then none else priceEnd first accRev []
  | c :: rest, budget + 1, accRev =>
    if c.isDigit || isSpacePy c then
      match priceLoop first rest budget (c :: accRev) with
      | some r => some r
      | none => if accRev.isEmpty then none else priceEnd first accRev (c :: rest)
    else if accRev.isEmpty then none else priceEnd first accRev (c :: rest)

/-- `PRICE_RE` body at one position: `\b(\d[\d\s]{1,9})\s*\$`. -/
def matchPriceAt (prev : Option Char) (cs : List Char) : Option (List Char) :=
  match cs with
  | c :: rest => if boundaryBefore prev && c.isDigit then priceLoop c rest 9 [] else none
  | [] => none

/-- `_parse_price_from_title(title)` from parser.py (the group with its
whitespace removed). -/
def parse_price_from_title (title : String) : Option String :=
  (scanWithPrev matchPriceAt none title.toList).map
    (fun cap => (⟨cap.filter (fun c => !isSpacePy c)⟩ : String))

/-- `_parse_price_from_description(description)` from parser.py. -/
def parse_price_from_description (description : String) : Option String :=
  parse_price_from_title description

/-- The character class of `VIN_RE`: `[A-HJ-NPR-Z0-9]`. -/
def isVinChar (c : Char) : Bool :=
  ('A' ≤ c ∧ c ≤ 'H') || ('J' ≤ c ∧ c ≤ 'N') || c = 'P' || ('R' ≤ c ∧ c ≤ 'Z') || c.isDigit

/-- `VIN_RE` body at one position: `\b[A-HJ-NPR-Z0-9]{17}\b`. -/
def matchVinAt (prev : Option Char) (cs : List Char) : Option (List Char) :=
  if boundaryBefore prev then
    let seg := cs.take 17
    if seg.length = 17 && seg.all isVinChar && boundaryAfter (cs.drop 17) then some seg
    else none
  else none

/-- `_parse_vin_from_title(title)` from parser.py. -/
def parse_vin_from_title (title : String) : Option String :=
  (scanWithPrev matchVinAt none title.toList).map (fun cap => (⟨cap⟩ : String))

/-- The letter class of `PLATE_RE`: `[А-ЯІЇЄA-Z]`. -/
def isPlateLetter (c : Char) : Bool :=
  ('А' ≤ c ∧ c ≤ 'Я') || c = 'І' || c = 'Ї' || c = 'Є' || ('A' ≤ c ∧ c ≤ 'Z')

/-- `PLATE_RE` body at one position: `\b[А-ЯІЇЄA-Z]{2}\d{4}[А-ЯІЇЄA-Z]{2}\b`. -/
def matchPlateAt (prev : Option Char) (cs : List Char) : Option (List Char) :=
  if boundaryBefore prev then
    let seg := cs.take 8
    if seg.length = 8 && (seg.take 2).all isPlateLetter &&
        ((seg.drop 2).take 4).all Char.isDigit && (seg.drop 6).all isPlateLetter &&
        boundaryAfter (cs.drop 8) then
      some seg
    else none
  else none

/-- `_parse_plate_from_title(title)` from parser.py. -/
def parse_plate_from_title (title : String) : Option String :=
  (scanWithPrev matchPlateAt none title.toList).map (fun cap => (⟨cap⟩ : String))

/-- Greedy-with-backtracking `([\d\s]+)` followed by a tail check. -/
def grabDigitSpace (endCheck : List Char → List Char → Option (List Char)) :
    List Char → List Char → Option (List Char)
  | accRev, c :: rest =>
    if c.isDigit || isSpacePy c then
      match grabDigitSpace endCheck (c :: accRev) rest with
      | some r => some r
      | none => if accRev.isEmpty then none else endCheck accRev (c :: rest)
    else if accRev.isEmpty then none else endCheck accRev (c :: rest)
  | accRev, [] => if accRev.isEmpty then none else endCheck accRev []

/-- Tail of `ODOMETER_THS_RE`: `\s*тис\.?\s*км`, CI. -/
def odoThsEnd (accRev cs : List Char) : Option (List Char) := do
  let r1 ← ciDrop "тис".toList (cs.dropWhile isSpacePy)
  let r2 := match r1 with
            | '.' :: rest => rest
            | _ => r1
  let _ ← ciDrop "км".toList (r2.dropWhile isSpacePy)
  some accRev.reverse

/-- Tail of `ODOMETER_KM_RE`: `\s*км`, CI. -/
def odoKmEnd (accRev cs : List Char) : Option (List Char) := do
  let _ ← ciDrop "км".toList (cs.dropWhile isSpacePy)
  some accRev.reverse

/-- `ODOMETER_*_RE` body at one position: `пробіг\s+([\d\s]+)` + tail, CI. -/
def matchOdoAt (endCheck : List Char → List Char → Option (List Char)) (cs : List Char) :
    Option (List Char) := do
  let r1 ← ciDrop "пробіг".toList cs
  let r2 ← dropWs1 r1
  grabDigitSpace endCheck [] r2

/-- `_parse_odometer_from_description(description)` from parser.py. -/
def parse_odometer_from_description (description : String) : Option Int :=
  match scanPositions (matchOdoAt odoThsEnd) description.toList with
  | some grp =>
    let d := digitsOf ⟨grp⟩
    if d ≠ "" then some ((digitsVal d.toList : Int) * 1000) else none
  | none =>
    match scanPositions (matchOdoAt odoKmEnd) description.toList with
    | some grp =>
      let d := digitsOf ⟨grp⟩
      if d ≠ "" then some ((digitsVal d.toList : Int)) else none
    | none => none

/-- `\s+([^,]+)` of `SELLER_RE`, with the whitespace giving characters back
to the group under backtracking. -/
def sellerTail : List Char → Option (List Char)
  | c :: rest =>
    if isSpacePy c then
      match sellerTail rest with
      | some r => some r
      | none =>
        match rest.takeWhile (fun x => x ≠ ',') with
        | [] => none
        | run => some run
    else none
  | [] => none

/-- `SELLER_RE` body at one position: `продав(ець|ец)\s+([^,]+)`, CI. -/
def matchSellerAt (cs : List Char) : Option (List Char) := do
  let r1 ← ciDrop "продав".toList cs
  let r2 ← match ciDrop "ець".toList r1 with
           | some r => some r
           | none => ciDrop "ец".toList r1
  sellerTail r2

/-- `_parse_username_from_description(description)` from parser.py:
group 2 stripped, cut at `" на "`, stripped again. -/
def parse_username_from_description (description : String) : Option String :=
  match scanPositions matchSellerAt description.toList with
  | some grp =>
    let value := pyStrip ⟨grp⟩
    let value := match strFind value " на " with
                 | some i => (⟨value.toList.take i⟩ : String)
                 | none => value
    some (pyStrip value)
  | none => none

/- ### `parse_listing` from parser.py -/

def JVal.isNull : JVal → Bool
  | .null => true
  | _ => false

/-- `pinia = extract_pinia_payload(html) or {}`. -/
def piniaNorm : Option JVal → JVal
  | some p => if p.truthy then p else .obj []
  | none => .obj []

/-- `root = next(iter(structures.values()), {}) if structures else {}`. -/
def rootOf (pinia : JVal) : JVal :=
  let structures := asDict (jGet (asDict (jGet pinia "page")) "structures")
  match structures with
  | .obj [] => .obj []
  | .obj (kv :: _) => kv.2
  | _ => .obj []

def additionalOf (pinia : JVal) : JVal :=
  asDict (jGet (asDict (rootOf pinia)) "additionalParams")

/-- `ld_json`, including the string re-parse branch of parser.py (which is
unreachable after `_as_dict` but kept for fidelity). -/
def ldJsonOf (pinia : JVal) : JVal :=
  let ld0 := asDict (jGet (asDict (rootOf pinia)) "ldJSON")
  let ld1 := match ld0 with
             | .str s =>
               (match jsonLoads s with
                | some v => v
                | none => .obj [])
             | v => v
  asDict ld1

/-- The `images` list taken from `photoLdJSON`. -/
def photoImagesOf (pinia : JVal) : List JVal :=
  let photo_ld := asDict (jGet (asDict (rootOf pinia)) "photoLdJSON")
  match jGet photo_ld "image" with
  | .arr xs => xs
  | _ => []

def ownerOf (pinia : JVal) : JVal := asDict (jGet (additionalOf pinia) "owner")

/-- `phone_id = _first_str(_deep_find(pinia, "phoneId"))`. -/
def phoneIdOfPayload (pinia : JVal) : Option String := firstStr (deepFind "phoneId" pinia)

/-- `auto_id = additional.get("autoId") or _first_str(_deep_find(pinia, "autoId"))`. -/
def autoIdOfPayload (pinia : JVal) : JVal :=
  pyOr (jGet (additionalOf pinia) "autoId") (optStrToVal (firstStr (deepFind "autoId" pinia)))

/-- `user_id = _first_str(_deep_find(pinia, "userId")) or owner.get("id")`. -/
def userIdOfPayload (pinia : JVal) : JVal :=
  match firstStr (deepFind "userId" pinia) with
  | some s => .str s
  | none => jGet (ownerOf pinia) "id"

/-- `value.strip()` on a dynamically typed value: an `AttributeError` unless
the value is a string. -/
def pyStripS : JVal → Except String String
  | .str s => .ok (pyStrip s)
  | _ => .error "AttributeError: strip"

/-- `title = additional.get("title") or ld_json.get("name") or title_html`,
then `title.strip()` if truthy else `None`. -/
def resolveTitle (pinia : JVal) (title_html : String) : Except String (Option String) :=
  let t := pyOr (pyOr (jGet (additionalOf pinia) "title") (jGet (ldJsonOf pinia) "name")) (.str title_html)
  if t.truthy then (pyStripS t).map some else .ok none

/-- The `username` block of `parse_listing`. -/
def resolveUsername (pinia : JVal) (meta_description : String) : Except String (Option String) :=
  let u0 := pyOr (jGet (ownerOf pinia) "name") (.str "")
  let u1 := if !u0.truthy && !(meta_description == "") then
              (match parse_username_from_description meta_description with
               | some s => JVal.str s
               | none => JVal.str "")
            else u0
  if u1.truthy then (pyStripS u1).map some else .ok none

/-- The `image_url` block of `parse_listing`. -/
def resolveImageUrl (pinia : JVal) (og_image : String) : Except String (Option String) :=
  let main_photo := asDict (jGet (additionalOf pinia) "mainPhoto")
  let i0 := pyOr (jGet main_photo "src") (.str "")
  let i1 := if !i0.truthy then
              let formats := asDict (jGet main_photo "formats")
              pyOr (pyOr (jGet formats "large") (jGet formats "middle")) (.str "")
            else i0
  let images := photoImagesOf pinia
  let i2 := if !i1.truthy && !images.isEmpty then
              (match images.head? with
               | some (.obj kvs) =>
                   pyOr (pyOr (jGet (.obj kvs) "contentUrl") (jGet (.obj kvs) "image")) (.str "")
               | _ => i1)
            else i1
  let i3 := if !i2.truthy && !(og_image == "") then .str og_image else i2
  if i3.truthy then (pyStripS i3).map some else .ok none

/-- The `price_usd` block of `parse_listing` (`is None` tests, not truthiness). -/
def resolvePrice (pinia : JVal) (title_html meta_description : String) : JVal :=
  let offers := asDict (jGet (ldJsonOf pinia) "offers")
  let p0 := jGet offers "price"
  let p1 := if p0.isNull then jGet (asDict (jGet (additionalOf pinia) "prices")) "USD" else p0
  let p2 := if p1.isNull && !(title_html == "") then optStrToVal (parse_price_from_title title_html) else p1
  if p2.isNull && !(meta_description == "") then optStrToVal (parse_price_from_description meta_description) else p2

/-- The `odometer` block of `parse_listing`. -/
def resolveOdometer (pinia : JVal) (meta_description : String) : JVal :=
  let o0 := jGet (asDict (jGet (ldJsonOf pinia) "mileageFromOdometer")) "value"
  if o0.isNull && !(meta_description == "") then
    match parse_odometer_from_description meta_description with
    | some n => .num n
    | none => .null
  else o0

/-- The `images_count` block of `parse_listing`. -/
def resolveImagesCount (pinia : JVal) (html : String) : Int :=
  let c0 : Int := match carouselCount html with
                  | some n => (n : Int)
                  | none => 0
  let c1 := if c0 = 0 then ((photoImagesOf pinia).length : Int) else c0
  if c1 = 0 then
    match firstInt (deepFind "count" (additionalOf pinia)) with
    | some n => n
    | none => 0
  else c1

/-- The `car_vin` block of `parse_listing`. -/
def resolveVin (pinia : JVal) (title_html : String) : JVal :=
  let v0 := jGet (ldJsonOf pinia) "vehicleIdentificationNumber"
  let v1 := if !v0.truthy then
              (match firstStr (deepFind "vin" pinia) with
               | some s => JVal.str s
               | none => optStrToVal (firstStr (deepFind "car_vin" pinia)))
            else v0
  if !v1.truthy && !(title_html == "") then optStrToVal (parse_vin_from_title title_html) else v1

/-- The `car_number` block of `parse_listing`. -/
def resolveCarNumber (pinia : JVal) (title_html : String) : Option String :=
  let n0 := ((firstStr (deepFind "carNumber" pinia)).or
             ((firstStr (deepFind "autoNumber" pinia)).or
              ((firstStr (deepFind "car_number" pinia)).or
               (firstStr (deepFind "plateNumber" pinia)))))
  if n0.isNone && !(title_html == "") then parse_plate_from_title title_html else n0

/-- `avatar = owner.get("photo") or _first_str(_deep_find(pinia, "avatar")) or ""`. -/
def avatarOf (pinia : JVal) : JVal :=
  pyOr (pyOr (jGet (ownerOf pinia) "photo") (optStrToVal (firstStr (deepFind "avatar" pinia)))) (.str "")

/-- Result of `parse_listing`: the `data` dict, the optional `phone_meta`
dict, and the `missing` report, all in source order. -/
structure ParsedListing where
  data : List (String × JVal)
  phoneMeta : Option (List (String × JVal))
  missing : List String

/-- The key set of the `missing` comprehension in `parse_listing`. -/
def requiredFieldSet : List String :=
  ["title", "price_usd", "odometer", "username", "image_url", "images_count", "car_number", "car_vin"]

/-- `value is None or value == "" or value == 0` (Python `False == 0`). -/
def isMissingVal : JVal → Bool
  | .null => true
  | .str s => s == ""
  | .num n => n == 0
  | .bool b => !b
  | _ => false

/-- The `phone_meta` block of `parse_listing`: all-or-nothing on the three
identifiers. -/
def phoneMetaOf (pinia : JVal) (title username : Option String) : Option (List (String × JVal)) :=
  if (autoIdOfPayload pinia).truthy && (userIdOfPayload pinia).truthy &&
      (optStrToVal (phoneIdOfPayload pinia)).truthy then
    some [("auto_id", .str (pyStr (autoIdOfPayload pinia))),
          ("user_id", .str (pyStr (userIdOfPayload pinia))),
          ("phone_id", .str (pyStr (optStrToVal (phoneIdOfPayload pinia)))),
          ("title", .str (title.getD "")),
          ("avatar", avatarOf pinia),
          ("user_name", .str (username.getD ""))]
  else none

/-- The `data` dict of `parse_listing`, in source insertion order. -/
def listingData (pinia : JVal) (html url : String)
    (title username image_url : Option String) : List (String × JVal) :=
  [("url", .str url),
   ("title", optStrToVal title),
   ("price_usd", resolvePrice pinia (parse_title html) (parse_meta_description html)),
   ("odometer", resolveOdometer pinia (parse_meta_description html)),
   ("username", optStrToVal username),
   ("phone_number", .null),
   ("image_url", optStrToVal image_url),
   ("images_count", .num (resolveImagesCount pinia html)),
   ("car_number", optStrToVal (resolveCarNumber pinia (parse_title html))),
   ("car_vin", resolveVin pinia (parse_title html))]

/-- The triple `parse_listing` assembles once the three fallible field
resolutions have succeeded. -/
def mkParsedListing (pinia : JVal) (html url : String)
    (title username image_url : Option String) : ParsedListing :=
  { data := listingData pinia html url title username image_url,
    phoneMeta := phoneMetaOf pinia title username,
    missing := ((listingData pinia html url title username image_url).filter
        (fun kv => requiredFieldSet.contains kv.1 && isMissingVal kv.2)).map (·.1) }

/-- `parse_listing(html, url)` given the already-extracted payload.  The
`.strip()` calls on dynamically typed payload values can raise, hence the
`Except`. -/
def parseListingWith (piniaOpt : Option JVal) (html url : String) : Except String ParsedListing :=
  match resolveTitle (piniaNorm piniaOpt) (parse_title html) with
  | .error e => .error e
  | .ok title =>
  match resolveUsername (piniaNorm piniaOpt) (parse_meta_description html) with
  | .error e => .error e
  | .ok username =>
  match resolveImageUrl (piniaNorm piniaOpt) (parse_og_image html) with
  | .error e => .error e
  | .ok image_url =>
  .ok (mkParsedListing (piniaNorm piniaOpt) html url title username image_url)

/-- `parse_listing(html, url)` from parser.py. -/
def parse_listing (html url : String) : Except String ParsedListing :=
  parseListingWith (extractPiniaPayload html) html url

/- ### models.py: `CarListing` and its pydantic validators -/

/-- The raw Python values reaching the `mode="before"` validators in this
codebase: `None`, an `int`, or a `str`. -/
inductive PyPrim where
  | vnone
  | vint (n : Int)
  | vstr (s : String)
deriving DecidableEq

/-- Python `str(value)` on a validator input. -/
def pyPrimStr : PyPrim → String
  | .vnone => "None"
  | .vint n => intRepr n
  | .vstr s => s

/-- `CarListing.require_non_empty_str` from models.py (validator for
`title`, `username`, `image_url`). -/
def require_non_empty_str (fieldName : String) (value : PyPrim) : Except String String :=
  match value with
  | .vnone => .error (fieldName ++ " is required")
  | v =>
    let string := pyStrip (pyPrimStr v)
    if string = "" then .error (fieldName ++ " is required") else .ok string

/-- `CarListing.parse_price` from models.py. -/
def parse_price (value : PyPrim) : Option Int :=
  match value with
  | .vint n => some n
  | v =>
    let s := ⟨(pyStrip (pyPrimStr v)).toList.map lowerChar⟩
    let d := digitsOf s
    if d = "" then none else some ((digitsVal d.toList : Int))

/-- `CarListing.parse_odometer` from models.py. -/
def parse_odometer (value : PyPrim) : Option Int :=
  match value with
  | .vnone => none
  | .vint n => some n
  | .vstr s0 =>
    let s := (⟨(pyStrip s0).toList.map lowerChar⟩ : String)
    if s = "" then none
    else
      let d := digitsOf s
      if d = "" then none
      else if strContains s "тис" then some ((digitsVal d.toList : Int) * 1000)
      else some ((digitsVal d.toList : Int))

/-- Rewriting tail of `CarListing.parse_phone_number`: the local-format
checks and the final `int(string)` (whose `ValueError` is the `Except`). -/
def phoneFinish (string0 : String) : Except String (Option Int) :=
  if string0 = "" then .ok none
  else
    let string1 :=
      if "0".toList.isPrefixOf string0.toList ∧ string0.length = 10 then
        "380" ++ (⟨string0.toList.drop 1⟩ : String)
      else if string0.length = 9 then "380" ++ string0
      else string0
    match pyInt string1 with
    | some n => .ok (some n)
    | none => .error "ValueError: invalid literal for int"

/-- `CarListing.parse_phone_number` from models.py. -/
def parse_phone_number (value : PyPrim) : Except String (Option Int) :=
  match value with
  | .vnone => .ok none
  | .vint n => phoneFinish (intRepr n)
  | .vstr s => phoneFinish (digitsOf s)

/-- The validated `CarListing` record (`datetime_found`, a wall-clock
default, is omitted). -/
structure CarListing where
  url : String
  title : String
  price_usd : Option Int
  odometer : Option Int
  username : String
  phone_number : Option Int
  image_url : String
  images_count : Int
  car_number : Option String
  car_vin : Option String
deriving DecidableEq

/-- The raw field values handed to the `CarListing` constructor by
`Scraper.parse_listing_page`. -/
structure RawListing where
  url : String
  title : PyPrim
  price_usd : PyPrim
  odometer : PyPrim
  username : PyPrim
  phone_number : PyPrim
  image_url : PyPrim
  images_count : Int
  car_number : Option String
  car_vin : Option String

/-- `CarListing(**fields)`: run the pydantic validators; any validator
error fails the construction. -/
def mkCarListing (r : RawListing) : Except String CarListing :=
  match require_non_empty_str "title" r.title with
  | .error e => .error e
  | .ok title =>
  match require_non_empty_str "username" r.username with
  | .error e => .error e
  | .ok username =>
  match require_non_empty_str "image_url" r.image_url with
  | .error e => .error e
  | .ok image_url =>
  match parse_phone_number r.phone_number with
  | .error e => .error e
  | .ok phone_number =>
  .ok { url := r.url, title := title, price_usd := parse_price r.price_usd,
        odometer := parse_odometer r.odometer, username := username,
        phone_number := phone_number, image_url := image_url,
        images_count := r.images_count, car_number := r.car_number, car_vin := r.car_vin }

/- ### scraper.py: URL construction, fetch retry loop, pipeline -/

/-- The default `SCRAPE_START_URL` from config.py. -/
def SCRAPE_START_URL : String := "https://auto.ria.com/uk/car/used/"

/-- `Scraper.fetch_search_page` URL construction:
`f"{SCRAPE_START_URL}?page={page_num}"`, parameterised by the base URL. -/
def fetchSearchPageUrl (baseUrl : String) (pageNum : Nat) : String :=
  baseUrl ++ "?page=" ++ natRepr pageNum

/-- Split a character list on a separator character. -/
def splitOnChar (sep : Char) : List Char → List (List Char)
  | [] => [[]]
  | c :: rest =>
    if c = sep then [] :: splitOnChar sep rest
    else
      match splitOnChar sep rest with
      | [] => [[c]]
      | g :: gs => (c :: g) :: gs

/-- The `key=value` items after the first `?` of a URL. -/
def queryParamsOf (url : String) : List String :=
  match url.toList.dropWhile (fun c => c ≠ '?') with
  | [] => []
  | _ :: q => (splitOnChar '&' q).map (fun p => (⟨p⟩ : String))

/-- Modelled from the spec: page 1 uses the base URL verbatim; pages ≥ 2
parse the base URL's query string, override only the page parameter, and
re-serialize, preserving every other parameter.  Used only to compare with
`fetchSearchPageUrl`, the construction the source actually performs. -/
def specPageUrl (baseUrl : String) (pageNum : Nat) : String :=
  if pageNum = 1 then baseUrl
  else
    let cs := baseUrl.toList
    let path := cs.takeWhile (fun c => c ≠ '?')
    let query := (cs.dropWhile (fun c => c ≠ '?')).drop 1
    let params := (splitOnChar '&' query).filter (fun p => !p.isEmpty)
    let kept := params.filter (fun p => !("page=".toList.isPrefixOf p))
    let pageParam := "page=".toList ++ (natRepr pageNum).toList
    (⟨path⟩ : String) ++ "?" ++ ⟨(kept ++ [pageParam]).intersperse ['&'] |>.flatten⟩

/-- One HTTP response in the fetch model: a status with a body, or a
transport error (`aiohttp.ClientError` / timeout). -/
inductive FetchResp where
  | status (code : Nat) (body : String)
  | netErr
deriving DecidableEq

/-- The retryable status set of `Scraper._fetch`. -/
def retryableStatus (code : Nat) : Bool :=
  code = 429 || code = 500 || code = 502 || code = 503 || code = 504

/-- The retry loop of `Scraper._fetch`: `attempt` is the 1-based attempt
number, `remaining` the attempts left out of `MAX_RETRIES`, `backoff` the
current delay (1.0 initially, doubled and capped at 20 after each sleep).
Returns (result, number of requests issued, sleep delays in order). -/
def fetchAux (resp : Nat → FetchResp) : Nat → Nat → Nat → Option String × Nat × List Nat
  | _, 0, _ => (none, 0, [])
  | attempt, remaining + 1, backoff =>
    match resp attempt with
    | .status code body =>
      if retryableStatus code then
        let r := fetchAux resp (attempt + 1) remaining (min (backoff * 2) 20)
        (r.1, r.2.1 + 1, backoff :: r.2.2)
      else if code ≠ 200 then (none, 1, [])
      else (some body, 1, [])
    | .netErr =>
      let r := fetchAux resp (attempt + 1) remaining (min (backoff * 2) 20)
      (r.1, r.2.1 + 1, backoff :: r.2.2)

/-- `Scraper._fetch(session, url)` with `maxRetries = MAX_RETRIES` and the
per-attempt responses given by the oracle `resp`. -/
def fetchModel (resp : Nat → FetchResp) (maxRetries : Nat) : Option String × Nat × List Nat :=
  fetchAux resp 1 maxRetries 1

/-- The backoff delay sequence starting from delay `b`. -/
def backoffSeq : Nat → Nat → List Nat
  | 0, _ => []
  | n + 1, b => b :: backoffSeq n (min (b * 2) 20)

/-- `"userId"\s*:\s*(\d+)` at one position. -/
def matchUserIdAt (cs : List Char) : Option (List Char) := do
  let r1 ← ciDrop "\"userId\"".toList cs
  let r2 := r1.dropWhile isSpacePy
  match r2 with
  | ':' :: r3 => (takeDigits1 (r3.dropWhile isSpacePy)).map (·.1)
  | _ => none

/-- `"phoneId"\s*:\s*"(\d+)"` at one position. -/
def matchPhoneIdAt (cs : List Char) : Option (List Char) := do
  let r1 ← ciDrop "\"phoneId\"".toList cs
  let r2 := r1.dropWhile isSpacePy
  match r2 with
  | ':' :: r3 =>
    (match r3.dropWhile isSpacePy with
     | '"' :: r4 => do
       let (ds, r5) ← takeDigits1 r4
       match r5 with
       | '"' :: _ => some ds
       | _ => none
     | _ => none)
  | _ => none

/-- `_(\d+)\.html` at one position. -/
def matchAutoIdAt (cs : List Char) : Option (List Char) := do
  match cs with
  | '_' :: r1 => do
    let (ds, r2) ← takeDigits1 r1
    let _ ← ciDrop ".html".toList r2
    some ds
  | _ => none

/-- The `userId` regex search of `Scraper._get_phone_number`. -/
def scanUserId (html : String) : Option String :=
  (scanPositions matchUserIdAt html.toList).map (fun ds => (⟨ds⟩ : String))

/-- The `phoneId` regex search of `Scraper._get_phone_number`. -/
def scanPhoneId (html : String) : Option String :=
  (scanPositions matchPhoneIdAt html.toList).map (fun ds => (⟨ds⟩ : String))

/-- The `auto_id` regex search on the listing URL. -/
def scanAutoId (url : String) : Option String :=
  (scanPositions matchAutoIdAt url.toList).map (fun ds => (⟨ds⟩ : String))

/-- The phone pop-up API response, as seen by `_get_phone_number`: `none`
models any exception (transport error, non-JSON body). -/
structure PhoneApiResp where
  status : Nat
  phoneStr : String

/-- `Scraper._get_phone_number(session, html, url)`: extract the three
identifiers; when any is missing return `None` without calling the API;
otherwise issue the POST (the oracle `api`) and parse `phoneStr`.
Returns (whether the API call was made, the phone number). -/
def getPhoneNumberModel (html url : String) (api : Option PhoneApiResp) : Bool × Option Int :=
  let user_id := scanUserId html
  let phone_id := scanPhoneId html
  let auto_id := scanAutoId url
  if user_id.isNone || phone_id.isNone || auto_id.isNone then (false, none)
  else
    match api with
    | none => (true, none)
    | some resp =>
      if resp.status = 200 then
        let raw := digitsOf resp.phoneStr
        if "0".toList.isPrefixOf raw.toList ∧ raw.length = 10 then
          (true, some ((digitsVal ("38" ++ raw).toList : Int)))
        else (true, none)
      else (true, none)

/-- The listing-level oracle of a run: `fetchListing` models
`Scraper.fetch_listing_html`, `parsed` the field values that
`Scraper.parse_listing_page` (with its `_get_*` helpers and the phone
API call) produces for a given page. -/
structure ListingEnv where
  fetchListing : String → Option String
  parsed : String → String → RawListing

/-- `Scraper._process_single_listing(session, url, db)`: returns the record
passed to `db.insert_batch([car_data])`, or `none` when the listing is
skipped (fetch failure, removed listing, validation error, missing image
or phone). -/
def processSingleListing (env : ListingEnv) (url : String) : Option CarListing :=
  match env.fetchListing url with
  | none => none
  | some html =>
    if strContains html "Оголошення не знайдено" || strContains html "Видалено" then none
    else
      match mkCarListing (env.parsed html url) with
      | .error _ => none
      | .ok car =>
        if car.image_url = "" then none
        else if car.phone_number = none ∨ car.phone_number = some 0 then none
        else some car

/-- The run-level oracle: page fetches, the URL list parsed from a search
page, and the `db.existing_urls` membership test. -/
structure RunEnv where
  fetchPage : Nat → Option String
  searchUrls : String → List String
  inDb : String → Bool
  listing : ListingEnv

/-- The `insert_batch` calls issued while processing one search page in
`Scraper.run`: each successfully processed listing produces its own
one-element batch. -/
def pageInsertCalls (env : RunEnv) (pageNum : Nat) : List (List CarListing) :=
  match env.fetchPage pageNum with
  | none => []
  | some html =>
    let allUrls := env.searchUrls html
    let newUrls := allUrls.filter (fun u => !env.inDb u)
    (newUrls.filterMap (processSingleListing env.listing)).map (fun c => [c])

/-- All `insert_batch` calls of `Scraper.run` over pages `1..pagesToScan`,
in order. -/
def runInsertCalls (env : RunEnv) (pagesToScan : Nat) : List (List CarListing) :=
  ((List.range pagesToScan).map (fun i => pageInsertCalls env (i + 1))).flatten

/- ### scheduler.py: `AppScheduler._guarded` -/

/-- Outcome of one trigger firing of a guarded job. -/
inductive JobOutcome where
  | skipped
  | ranAt (time : Nat)
deriving DecidableEq

/-- `AppScheduler._guarded(name, coro, wait=...)` under the cooperative
event loop: `lockBusyUntil = some T` models `self._lock` being held by the
other job until time `T` when the trigger fires at `fireTime`.
`wait = false` (SCRAPE): a held lock skips the firing, otherwise the job
runs now.  `wait = true` (DUMP): `async with self._lock` queues behind the
holder and runs at release. -/
def guardedFire (lockBusyUntil : Option Nat) (fireTime : Nat) (wait : Bool) : JobOutcome :=
  match lockBusyUntil with
  | none => .ranAt fireTime
  | some releaseTime =>
    if fireTime < releaseTime then
      if wait then .ranAt releaseTime else .skipped
    else .ranAt fireTime

/-- Number of invocations of the wrapped coroutine for one firing. -/
def invocationCount : JobOutcome → Nat
  | .skipped => 0
  | .ranAt _ => 1

/-- `AppScheduler._scrape_job`: `_guarded("SCRAPE", run_scrape, wait=False)`. -/
def scrapeJobFire (lockBusyUntil : Option Nat) (fireTime : Nat) : JobOutcome :=
  guardedFire lockBusyUntil fireTime false

/-- `AppScheduler._dump_job`: `_guarded("DUMP", run_dump, wait=True)`. -/
def dumpJobFire (lockBusyUntil : Option Nat) (fireTime : Nat) : JobOutcome :=
  guardedFire lockBusyUntil fireTime true

/-- Boolean strict-increase test on a list of delays. -/
def strictIncr : List Nat → Bool
  | [] => true
  | [_] => true
  | a :: b :: rest => decide (a < b) && strictIncr (b :: rest)

/- ### Concrete oracles and inputs used by the claim theorems -/

/-- Raw fields of a listing that passes every validator and filter. -/
def goodRawListing (u : String) : RawListing :=
  { url := u, title := .vstr "Auto", price_usd := .vnone, odometer := .vnone,
    username := .vstr "Продавець", phone_number := .vint 380501234567,
    image_url := .vstr "https://cdn1.riastatic.com/photo/1hd.webp",
    images_count := 1, car_number := none, car_vin := none }

/-- The validated record `goodRawListing` produces. -/
def goodCar (u : String) : CarListing :=
  { url := u, title := "Auto", price_usd := none, odometer := none,
    username := "Продавець", phone_number := some 380501234567,
    image_url := "https://cdn1.riastatic.com/photo/1hd.webp",
    images_count := 1, car_number := none, car_vin := none }

/-- Listing oracle on which every URL processes successfully. -/
def goodListingEnv : ListingEnv :=
  { fetchListing := fun _ => some "listing html", parsed := fun _ u => goodRawListing u }

/-- 250 distinct discovered URLs. -/
def urls250 : List String :=
  (List.range 250).map (fun i => "https://auto.ria.com/uk/auto/ad_" ++ natRepr i ++ ".html")

/-- A run discovering 250 URLs on one search page, none already stored. -/
def run250Env : RunEnv :=
  { fetchPage := fun _ => some "search html", searchUrls := fun _ => urls250,
    inDb := fun _ => false, listing := goodListingEnv }

/-- A run discovering a single URL. -/
def runOneEnv : RunEnv :=
  { fetchPage := fun _ => some "search html",
    searchUrls := fun _ => ["https://auto.ria.com/uk/auto/ad_1.html"],
    inDb := fun _ => false, listing := goodListingEnv }

/-- Same key at two depths: the nested container precedes the shallow key in
insertion order. -/
def nestedKeyExample : JVal := .obj [("a", .obj [("x", .num 1)]), ("x", .num 2)]

/-- The payload of the spec's brace-scanner test, containing a brace inside
a string literal. -/
def bracePayload : String := "\x7b\"a\":\"x\x7by\x7dz\",\"b\":1\x7d"

/-- Raw fields of a listing whose extraction left `image_url` unresolved. -/
def rawMissingImage : RawListing :=
  { url := "https://auto.ria.com/uk/auto/ad_7.html", title := .vstr "Car",
    price_usd := .vint 9000, odometer := .vint 150000, username := .vstr "Олег",
    phone_number := .vint 380501234567, image_url := .vnone,
    images_count := 3, car_number := none, car_vin := none }

/-- Listing oracle producing `rawMissingImage` for every URL. -/
def missingImageEnv : ListingEnv :=
  { fetchListing := fun _ => some "listing html", parsed := fun _ _ => rawMissingImage }

/-- A page whose embedded payload gives `additionalParams.title` the
numeric value 5: `title.strip()` then raises `AttributeError`. -/
def numericTitleHtml : String :=
  "window.__PINIA__=\x7b\"page\":\x7b\"structures\":\x7b\"s\":\x7b\"additionalParams\":\x7b\"title\":5\x7d\x7d\x7d\x7d\x7d"

/-- The extraction result for an empty page (no payload, no markup). -/
def emptyPageParsed : ParsedListing :=
  (parseListingWith none "" "u").toOption.getD ⟨[], none, []⟩

/-- Listing oracle whose parsed fields never include a phone number. -/
def noPhoneEnv : ListingEnv :=
  { fetchListing := fun _ => some "listing html",
    parsed := fun _ u => { goodRawListing u with phone_number := .vnone } }

/- ### Helper lemmas: decimal rendering round-trips and character facts -/

theorem digitsVal_foldl (cs : List Char) : ∀ a : Nat,
    cs.foldl (fun x c => x * 10 + digitVal c) a = a * 10 ^ cs.length + digitsVal cs := by
  induction cs with
  | nil => intro a; simp [digitsVal]
  | cons c rest ih =>
    intro a
    simp only [List.foldl_cons, digitsVal, List.length_cons, Nat.zero_mul, Nat.zero_add] at *
    rw [ih (a * 10 + digitVal c), ih (digitVal c)]
    ring

theorem digitChar_isDigit {m : Nat} (h : m < 10) : (Nat.digitChar m).isDigit = true := by
  interval_cases m <;> decide

theorem digitVal_digitChar {m : Nat} (h : m < 10) : digitVal (Nat.digitChar m) = m := by
  interval_cases m <;> decide

theorem natReprAux_digits : ∀ (fuel n : Nat) (acc : List Char),
    (∀ c ∈ acc, c.isDigit = true) → ∀ c ∈ natReprAux fuel n acc, c.isDigit = true := by
  intro fuel
  induction fuel with
  | zero => intro n acc hacc; simpa [natReprAux] using hacc
  | succ fuel ih =>
    intro n acc hacc c hc
    by_cases hn : n = 0
    · simp [natReprAux, hn] at hc; exact hacc c hc
    · simp only [natReprAux, if_neg hn] at hc
      refine ih (n / 10) _ ?_ c hc
      intro x hx
      rcases List.mem_cons.mp hx with h | h
      · subst h; exact digitChar_isDigit (Nat.mod_lt _ (by norm_num))
      · exact hacc x h

theorem natReprAux_val : ∀ (fuel n : Nat), n ≤ fuel → ∀ acc : List Char,
    digitsVal (natReprAux fuel n acc) = n * 10 ^ acc.length + digitsVal acc := by
  intro fuel
  induction fuel with
  | zero =>
    intro n hn acc
    interval_cases n
    simp [natReprAux]
  | succ fuel ih =>
    intro n hn acc
    by_cases h0 : n = 0
    · simp [natReprAux, h0]
    · have hdiv : n / 10 ≤ fuel := by
        have := Nat.div_lt_self (Nat.pos_of_ne_zero h0) (by norm_num : 1 < 10)
        omega
      simp only [natReprAux, if_neg h0]
      rw [ih (n / 10) hdiv]
      have hlt : n % 10 < 10 := Nat.mod_lt _ (by norm_num)
      have hdc : digitsVal (Nat.digitChar (n % 10) :: acc) =
          (n % 10) * 10 ^ acc.length + digitsVal acc := by
        simp only [digitsVal, List.foldl_cons, Nat.zero_mul, Nat.zero_add]
        rw [digitsVal_foldl, digitVal_digitChar hlt]
        rfl
      rw [hdc, List.length_cons]
      have key : n / 10 * 10 ^ (acc.length + 1) + n % 10 * 10 ^ acc.length
          = n * 10 ^ acc.length := by
        have h10 : n / 10 * 10 + n % 10 = n := by omega
        calc n / 10 * 10 ^ (acc.length + 1) + n % 10 * 10 ^ acc.length
            = (n / 10 * 10 + n % 10) * 10 ^ acc.length := by ring
          _ = n * 10 ^ acc.length := by rw [h10]
      omega

theorem natRepr_val (n : Nat) : digitsVal (natRepr n).toList = n := by
  by_cases h : n = 0
  · subst h; rfl
  · simp only [natRepr, if_neg h]
    show digitsVal (natReprAux n n []) = n
    rw [natReprAux_val n n (le_refl n) []]
    simp [digitsVal]

theorem natRepr_digits (n : Nat) : ∀ c ∈ (natRepr n).toList, c.isDigit = true := by
  by_cases h : n = 0
  · subst h; decide
  · simp only [natRepr, if_neg h]
    exact natReprAux_digits n n [] (by simp)

theorem natRepr_ne_empty (n : Nat) : (natRepr n).toList ≠ [] := by
  intro h
  have hv := natRepr_val n
  by_cases h0 : n = 0
  · subst h0; simp [natRepr] at h
  · rw [h] at hv
    simp [digitsVal] at hv
    exact h0 hv.symm

theorem isDigit_ne {c : Char} (h : c.isDigit = true) :
    c ≠ '-' ∧ c ≠ '+' ∧ c ≠ '?' ∧ c ≠ '&' := by
  refine ⟨?_, ?_, ?_, ?_⟩ <;> (intro he; rw [he] at h; exact absurd h (by decide))

theorem pyInt_digits {cs : List Char} (hne : cs ≠ []) (hd : ∀ c ∈ cs, c.isDigit = true) :
    pyIntAux cs = some ((digitsVal cs : Int)) := by
  cases cs with
  | nil => exact absurd rfl hne
  | cons c rest =>
    have hc : c.isDigit = true := hd c (by simp)
    simp only [pyIntAux]
    rw [if_neg (isDigit_ne hc).1, if_neg (isDigit_ne hc).2.1, if_pos]
    exact List.all_eq_true.mpr (fun x hx => hd x hx)

theorem pyInt_natRepr (m : Nat) : pyInt (natRepr m) = some (m : Int) := by
  have h := pyInt_digits (natRepr_ne_empty m) (natRepr_digits m)
  rw [natRepr_val] at h
  exact h

theorem pyInt_intRepr (n : Int) : pyInt (intRepr n) = some n := by
  by_cases hneg : n < 0
  · simp only [intRepr, if_pos hneg]
    have hne := natRepr_ne_empty n.natAbs
    have hd := natRepr_digits n.natAbs
    show pyIntAux ('-' :: (natRepr n.natAbs).toList) = some n
    simp only [pyIntAux]
    rw [if_pos trivial, if_pos ⟨hne, List.all_eq_true.mpr (fun x hx => hd x hx)⟩]
    rw [natRepr_val]
    congr 1
    omega
  · simp only [intRepr, if_neg hneg]
    rw [pyInt_natRepr]
    congr 1
    omega

theorem dropWhile_append_all {p : Char → Bool} {l1 l2 : List Char}
    (h : ∀ x ∈ l1, p x = true) : (l1 ++ l2).dropWhile p = l2.dropWhile p := by
  induction l1 with
  | nil => rfl
  | cons c rest ih =>
    simp only [List.cons_append, List.dropWhile_cons, h c (by simp), if_true]
    exact ih (fun x hx => h x (by simp [hx]))

theorem splitOnChar_no_sep {sep : Char} : ∀ cs : List Char, (∀ c ∈ cs, c ≠ sep) →
    splitOnChar sep cs = [cs] := by
  intro cs
  induction cs with
  | nil => intro _; rfl
  | cons c rest ih =>
    intro h
    simp only [splitOnChar]
    rw [if_neg (h c (by simp)), ih (fun x hx => h x (by simp [hx]))]

theorem intRepr_toList_ne (n : Int) : (intRepr n).toList ≠ [] := by
  by_cases h : n < 0
  · simp only [intRepr, if_pos h]
    show '-' :: (natRepr n.natAbs).toList ≠ []
    simp
  · simp only [intRepr, if_neg h]
    exact natRepr_ne_empty _

theorem intRepr_ne_empty (n : Int) : intRepr n ≠ "" := by
  intro h
  have h2 := intRepr_toList_ne n
  rw [h] at h2
  exact h2 rfl

/- ### Claim theorems -/

/-- C2: when the guard lock is held (until `releaseTime`) at the moment a
trigger fires, the scrape job is skipped entirely (zero invocations of the
scrape task), while the backup (dump) job waits for release and then runs
exactly once; a backup firing is never skipped. -/
theorem c2_guard_lock_semantics (releaseTime fireTime : Nat) (h : fireTime < releaseTime) :
    scrapeJobFire (some releaseTime) fireTime = .skipped ∧
    invocationCount (scrapeJobFire (some releaseTime) fireTime) = 0 ∧
    dumpJobFire (some releaseTime) fireTime = .ranAt releaseTime ∧
    invocationCount (dumpJobFire (some releaseTime) fireTime) = 1 ∧
    (∀ (busy : Option Nat) (t : Nat), dumpJobFire busy t ≠ .skipped) := by
  refine ⟨?_, ?_, ?_, ?_, ?_⟩
  · simp [scrapeJobFire, guardedFire, h]
  · simp [scrapeJobFire, guardedFire, h, invocationCount]
  · simp [dumpJobFire, guardedFire, h]
  · simp [dumpJobFire, guardedFire, h, invocationCount]
  · intro busy t
    cases busy with
    | none => simp [dumpJobFire, guardedFire]
    | some T => by_cases ht : t < T <;> simp [dumpJobFire, guardedFire, ht]

theorem c2_guard_lock_semantics_witness :
    scrapeJobFire (some 10) 4 = .skipped ∧ dumpJobFire (some 10) 4 = .ranAt 10 :=
  ⟨(c2_guard_lock_semantics 10 4 (by decide)).1,
   (c2_guard_lock_semantics 10 4 (by decide)).2.2.1⟩

/-- C3 counterexample: on `{"a": {"x": 1}, "x": 2}` the deep search yields
the nested value `1` *before* the mapping's own key `"x"` (first-yielded is
the deeper value), whereas the spec's own-keys-first order would yield
`[2, 1]`; so the claimed traversal order, and the claim that the shallower
value wins, are both false. -/
theorem c3_counterexample :
    deepFind "x" nestedKeyExample = [.num 1, .num 2] ∧
    specDeepFind "x" nestedKeyExample = [.num 2, .num 1] ∧
    (deepFind "x" nestedKeyExample).head? ≠ (specDeepFind "x" nestedKeyExample).head? := by
  refine ⟨rfl, rfl, ?_⟩
  intro h
  rw [show (deepFind "x" nestedKeyExample).head? = some (.num 1) from rfl,
      show (specDeepFind "x" nestedKeyExample).head? = some (.num 2) from rfl] at h
  simp at h

/-- C3 (amended): the traversal is depth-first in key insertion order, but
interleaved — a matching key's value is yielded and then immediately
descended into, before later keys of the same mapping are visited; the
first value yielded wins, which is the mapping's own (shallower) value only
when the matching key precedes the nested containers.  In particular, when
the searched key is the mapping's first key, its value is yielded first. -/
theorem c3_interleaved_order (key : String) (v : JVal) (kvs : List (String × JVal)) :
    (deepFind key (.obj ((key, v) :: kvs))).head? = some v ∧
    deepFind key (.obj ((key, v) :: kvs)) = v :: (deepFind key v ++ deepFindKvs key kvs) := by
  constructor
  · simp [deepFind, deepFindKvs]
  · simp [deepFind, deepFindKvs]

theorem fetchAux_all503 (n : Nat) : ∀ (attempt b : Nat),
    fetchAux (fun _ => .status 503 "") attempt n b = (none, n, backoffSeq n b) := by
  induction n with
  | zero => intro attempt b; rfl
  | succ n ih =>
    intro attempt b
    simp [fetchAux, retryableStatus, backoffSeq, ih]

theorem backoffSeq_formula : ∀ n k : Nat,
    backoffSeq n (min (2 ^ k) 20) = (List.range n).map (fun i => min (2 ^ (k + i)) 20) := by
  intro n
  induction n with
  | zero => intro k; rfl
  | succ n ih =>
    intro k
    have harith : min (min (2 ^ k) 20 * 2) 20 = min (2 ^ (k + 1)) 20 := by
      have h2 : (2:Nat) ^ (k + 1) = 2 ^ k * 2 := by ring
      omega
    calc backoffSeq (n + 1) (min (2 ^ k) 20)
        = min (2 ^ k) 20 :: backoffSeq n (min (min (2 ^ k) 20 * 2) 20) := rfl
      _ = min (2 ^ k) 20 :: backoffSeq n (min (2 ^ (k + 1)) 20) := by rw [harith]
      _ = min (2 ^ k) 20 :: (List.range n).map (fun i => min (2 ^ (k + 1 + i)) 20) := by
          rw [ih (k + 1)]
      _ = (List.range (n + 1)).map (fun i => min (2 ^ (k + i)) 20) := by
          rw [List.range_succ_eq_map, List.map_cons, List.map_map]
          have h0 : min ((2:Nat) ^ (k + 0)) 20 = min (2 ^ k) 20 := by norm_num
          rw [h0]
          congr 1
          apply List.map_congr_left
          intro i _
          simp only [Function.comp_apply, Nat.succ_eq_add_one]
          have hi : k + 1 + i = k + (i + 1) := by omega
          rw [hi]

theorem backoffSeq_one_formula (n : Nat) :
    backoffSeq n 1 = (List.range n).map (fun i => min (2 ^ i) 20) := by
  have h := backoffSeq_formula n 0
  simpa using h

/-- C5 (amended): with every attempt answered by a retryable status (503),
`_fetch` issues exactly the configured number of attempts and returns empty,
sleeping `min(1·2^attempt, 20)` seconds between attempts (base delay 1.0,
doubled, capped at 20); those delays are strictly increasing as long as the
attempt count is at most 6, i.e. until the 20-second cap repeats.  Any
non-200 status outside {429,500,502,503,504} returns empty immediately
after a single request with no backoff sleep. -/
theorem c5_retry_loop (maxRetries : Nat) :
    fetchModel (fun _ => .status 503 "") maxRetries
      = (none, maxRetries, (List.range maxRetries).map (fun i => min (2 ^ i) 20)) ∧
    (maxRetries ≤ 6 → strictIncr (backoffSeq maxRetries 1) = true) ∧
    (∀ (resp : Nat → FetchResp) (m code : Nat) (body : String),
        resp 1 = .status code body → retryableStatus code = false → code ≠ 200 →
        fetchModel resp (m + 1) = (none, 1, [])) := by
  refine ⟨?_, ?_, ?_⟩
  · rw [fetchModel, fetchAux_all503, backoffSeq_one_formula]
  · intro h
    interval_cases maxRetries <;> decide
  · intro resp m code body h hr hc
    simp [fetchModel, fetchAux, h, hr, hc]

theorem c5_retry_loop_witness :
    strictIncr (backoffSeq 3 1) = true ∧
    fetchModel (fun _ => FetchResp.status 404 "err") 3 = (none, 1, []) :=
  ⟨(c5_retry_loop 3).2.1 (by decide),
   (c5_retry_loop 3).2.2 (fun _ => FetchResp.status 404 "err") 2 404 "err" rfl rfl (by decide)⟩

/-- C5 counterexample: with 7 configured attempts and constant 503s, the
sleep sequence is 1,2,4,8,16,20,20 — the capped delays repeat, so the
delays are *not* strictly increasing as the claim states. -/
theorem c5_counterexample :
    fetchModel (fun _ => .status 503 "") 7 = (none, 7, [1, 2, 4, 8, 16, 20, 20]) ∧
    strictIncr [1, 2, 4, 8, 16, 20, 20] = false := ⟨rfl, rfl⟩

theorem findJsonEndAux_no_close : ∀ (cs : List Char) (idx : Nat) (depth : Int) (inS esc : Bool),
    (∀ c ∈ cs, c ≠ '\x7d') → findJsonEndAux cs idx depth inS esc = none := by
  intro cs
  induction cs with
  | nil => intros; rfl
  | cons ch rest ih =>
    intro idx depth inS esc h
    have hch : ch ≠ '\x7d' := h ch (by simp)
    have hr : ∀ c ∈ rest, c ≠ '\x7d' := fun c hc => h c (by simp [hc])
    simp only [findJsonEndAux]
    split_ifs <;> exact ih _ _ _ _ hr

theorem findJsonEndAux_close : ∀ (cs : List Char) (idx : Nat) (depth : Int) (inS esc : Bool) (r : Nat),
    findJsonEndAux cs idx depth inS esc = some r →
    ∃ j, j < cs.length ∧ cs[j]? = some '\x7d' ∧ r = idx + j + 1 := by
  intro cs
  induction cs with
  | nil => intro idx depth inS esc r h; simp [findJsonEndAux] at h
  | cons ch rest ih =>
    intro idx depth inS esc r h
    simp only [findJsonEndAux] at h
    split_ifs at h <;>
      first
        | (obtain ⟨j, hj, hc, hr⟩ := ih _ _ _ _ _ h
           exact ⟨j + 1, by simpa using hj, by simpa using hc, by omega⟩)
        | (injection h with h1
           refine ⟨0, by simp, ?_, by omega⟩
           simpa using ‹ch = '\x7d'›)

/-- C6: the balanced-brace scanner bounds the payload
`{"a":"x{y}z","b":1}` at position 19, just past the true closing brace at
index 18 (the brace inside the string literal is opaque); it returns no
result on text whose braces never balance; and in general whenever it
returns a position, that position lies strictly past `start` and
immediately past a closing brace. -/
theorem c6_brace_scanner :
    findJsonEnd bracePayload 0 = some 19 ∧
    bracePayload.toList[18]? = some '\x7d' ∧
    findJsonEnd "\x7b\"a\":1" 0 = none ∧
    (∀ (text : String) (start : Nat), (∀ c ∈ text.toList, c ≠ '\x7d') →
        findJsonEnd text start = none) ∧
    (∀ (text : String) (start e : Nat), findJsonEnd text start = some e →
        start < e ∧ text.toList[e - 1]? = some '\x7d') := by
  refine ⟨rfl, rfl, rfl, ?_, ?_⟩
  · intro text start h
    exact findJsonEndAux_no_close _ _ _ _ _ (fun c hc => h c (List.mem_of_mem_drop hc))
  · intro text start e h
    obtain ⟨j, hj, hc, he⟩ := findJsonEndAux_close _ _ _ _ _ _ h
    constructor
    · omega
    · rw [List.getElem?_drop] at hc
      have : e - 1 = start + j := by omega
      rw [this]
      exact hc

theorem c6_brace_scanner_witness :
    findJsonEnd "no braces at all" 0 = none ∧
    0 < 19 ∧ bracePayload.toList[19 - 1]? = some '\x7d' :=
  ⟨c6_brace_scanner.2.2.2.1 "no braces at all" 0 (by decide),
   c6_brace_scanner.2.2.2.2 bracePayload 0 19 c6_brace_scanner.1⟩

/-- C10 counterexample: the normalizer is not idempotent — the string
`"00123456789"` (11 digit characters with leading zeros) normalizes to the
9-digit number 123456789, and a second application rewrites that output
again into 380123456789. -/
theorem c10_counterexample :
    parse_phone_number (.vstr "00123456789") = .ok (some 123456789) ∧
    parse_phone_number (.vint 123456789) = .ok (some 380123456789) ∧
    (380123456789 : Int) ≠ 123456789 := ⟨rfl, rfl, by decide⟩

/-- C10 (amended): `None` maps to `None`, and re-applying the normalizer to
an integer output is the identity whenever that output's decimal string is
not exactly 9 characters (and not a 10-character leading-zero string, which
no integer rendering is); in particular every 380-rewritten 12-digit result
is a fixed point.  Idempotence fails only for outputs whose decimal string
has exactly 9 digits, which arise from digit strings with leading zeros. -/
theorem c10_normalizer_fixed_points :
    parse_phone_number .vnone = .ok none ∧
    (∀ n : Int, (intRepr n).length ≠ 9 →
        ¬("0".toList.isPrefixOf (intRepr n).toList ∧ (intRepr n).length = 10) →
        parse_phone_number (.vint n) = .ok (some n)) := by
  refine ⟨rfl, ?_⟩
  intro n h9 h10
  simp only [parse_phone_number, phoneFinish]
  rw [if_neg (intRepr_ne_empty n), if_neg h10, if_neg h9, pyInt_intRepr]

theorem c10_normalizer_fixed_points_witness :
    parse_phone_number (.vint 380123456789) = .ok (some 380123456789) :=
  c10_normalizer_fixed_points.2 380123456789 (by decide) (by decide)

theorem filter_const_true {α : Type} : ∀ l : List α, l.filter (fun _ => true) = l := by
  intro l
  induction l with
  | nil => rfl
  | cons x rest ih => simp [List.filter_cons, ih]

theorem filterMap_all_some {α β : Type} (f : α → Option β) (g : α → β)
    (h : ∀ x, f x = some (g x)) : ∀ l : List α, l.filterMap f = l.map g := by
  intro l
  induction l with
  | nil => rfl
  | cons x rest ih => simp [List.filterMap_cons, h x, ih]

theorem map_singleton_lengths {α : Type} (l : List α) :
    ((l.map (fun c => [c])).map List.length) = List.replicate l.length 1 := by
  induction l with
  | nil => rfl
  | cons x rest ih => simp [ih, List.replicate_succ]

set_option maxRecDepth 20000 in
theorem run250_calls :
    runInsertCalls run250Env 1 = (urls250.map goodCar).map (fun c => [c]) := by
  have hproc : ∀ u, processSingleListing goodListingEnv u = some (goodCar u) := fun u => rfl
  have h1 : runInsertCalls run250Env 1
      = ((urls250.filter (fun u => !run250Env.inDb u)).filterMap
          (processSingleListing goodListingEnv)).map (fun c => [c]) := rfl
  have hfl : urls250.filter (fun u => !run250Env.inDb u) = urls250 := by
    have he : (fun u : String => !run250Env.inDb u) = fun _ => true := rfl
    rw [he, filter_const_true]
  rw [h1, hfl, filterMap_all_some _ _ hproc]

/-- C1 counterexample: a run that discovers 250 URLs (all new, all
processed successfully) issues 250 `insert_batch` calls of one record each
— not 3 flushes of sizes 100, 100, 50; there is no batch collector. -/
theorem c1_counterexample :
    (runInsertCalls run250Env 1).map List.length = List.replicate 250 1 ∧
    (runInsertCalls run250Env 1).map List.length ≠ [100, 100, 50] := by
  have hlen : (urls250.map goodCar).length = 250 := by simp [urls250]
  constructor
  · rw [run250_calls, map_singleton_lengths, hlen]
  · rw [run250_calls, map_singleton_lengths, hlen]
    decide

/-- C1 (amended): `Scraper.run` performs no batching — every `insert_batch`
call it issues contains exactly one record (each successfully processed
listing is persisted on its own, immediately), and a run that discovers 250
URLs which all process successfully issues 250 such calls.  There is no
worker/collector queue protocol and no termination tokens. -/
theorem c1_per_listing_inserts :
    (∀ (env : RunEnv) (pages : Nat), ∀ call ∈ runInsertCalls env pages, call.length = 1) ∧
    (runInsertCalls run250Env 1).length = 250 := by
  constructor
  · intro env pages call hmem
    simp only [runInsertCalls, List.mem_flatten, List.mem_map] at hmem
    obtain ⟨sub, ⟨⟨i, hi, hsub⟩, hcall⟩⟩ := hmem
    subst hsub
    unfold pageInsertCalls at hcall
    cases hfp : env.fetchPage (i + 1) with
    | none => rw [hfp] at hcall; simp at hcall
    | some html =>
      rw [hfp] at hcall
      simp only [List.mem_map] at hcall
      obtain ⟨c, _, hc⟩ := hcall
      rw [← hc]
      rfl
  · rw [run250_calls]
    simp [urls250]

theorem c1_per_listing_inserts_witness :
    [goodCar "https://auto.ria.com/uk/auto/ad_1.html"].length = 1 :=
  c1_per_listing_inserts.1 runOneEnv 1 [goodCar "https://auto.ria.com/uk/auto/ad_1.html"]
    (by rw [show runInsertCalls runOneEnv 1
          = [[goodCar "https://auto.ria.com/uk/auto/ad_1.html"]] from rfl]
        exact List.mem_singleton_self _)

/-- C4 counterexample: page URLs are built by naive concatenation
`base + "?page=" + n`.  Page 1 does not use the base URL verbatim, and a
base URL that already carries a query string gets a second `?page=...`
appended, so the result carries two page parameters and differs from the
parse-override-reserialize URL the spec describes. -/
theorem c4_counterexample :
    fetchSearchPageUrl "https://auto.ria.com/uk/car/used/" 1 ≠ "https://auto.ria.com/uk/car/used/" ∧
    countOccur "page=" (fetchSearchPageUrl "https://auto.ria.com/uk/car/used/?page=9" 2) = 2 ∧
    fetchSearchPageUrl "https://auto.ria.com/uk/car/used/?page=9" 2
      ≠ specPageUrl "https://auto.ria.com/uk/car/used/?page=9" 2 := by
  refine ⟨by decide, rfl, by decide⟩

/-- C4 (amended): every page URL, page 1 included, is
`base + "?page=" + n` by string concatenation; when the base URL has no
query string of its own, the resulting URL's query is exactly the single
parameter `page=n` (and, vacuously, every unrelated parameter of the base
is preserved); a base that already has a query string is concatenated
verbatim, yielding a malformed double-`?` URL. -/
theorem c4_concat_page_url (base : String) (n : Nat) (h : '?' ∉ base.toList) :
    queryParamsOf (fetchSearchPageUrl base n) = ["page=" ++ natRepr n] := by
  have hnd : ∀ c ∈ (natRepr n).toList, c.isDigit = true := natRepr_digits n
  have htl : (fetchSearchPageUrl base n).toList
      = base.toList ++ '?' :: ("page=".toList ++ (natRepr n).toList) := by
    show (base ++ "?page=" ++ natRepr n).toList = _
    have : (base ++ "?page=" ++ natRepr n).toList
        = (base.toList ++ "?page=".toList) ++ (natRepr n).toList := rfl
    rw [this]
    simp
  have hp : ∀ x ∈ base.toList, (fun c : Char => (decide (c ≠ '?'))) x = true := by
    intro x hx
    simp only [ne_eq, decide_eq_true_eq]
    exact fun he => h (he ▸ hx)
  have hq : (fetchSearchPageUrl base n).toList.dropWhile (fun c => c ≠ '?')
      = '?' :: ("page=".toList ++ (natRepr n).toList) := by
    rw [htl, dropWhile_append_all hp]
    simp [List.dropWhile_cons]
  unfold queryParamsOf
  rw [hq]
  show (splitOnChar '&' ("page=".toList ++ (natRepr n).toList)).map
      (fun p => (⟨p⟩ : String)) = _
  rw [splitOnChar_no_sep _ ?hand]
  case hand =>
    intro c hc
    rcases List.mem_append.mp hc with h1 | h2
    · fin_cases h1 <;> decide
    · exact (isDigit_ne (hnd c h2)).2.2.2
  rfl

theorem c4_concat_page_url_witness :
    queryParamsOf (fetchSearchPageUrl "https://auto.ria.com/uk/car/used/" 2)
      = ["page=" ++ natRepr 2] :=
  c4_concat_page_url "https://auto.ria.com/uk/car/used/" 2 (by decide)

/-- C7 counterexample: a listing whose extraction left `image_url`
unresolved does *not* proceed to persistence with nulls — the pydantic
validator rejects the record (`image_url is required`) and
`_process_single_listing` persists nothing. -/
theorem c7_counterexample :
    mkCarListing rawMissingImage = .error "image_url is required" ∧
    processSingleListing missingImageEnv "https://auto.ria.com/uk/auto/ad_7.html" = none :=
  ⟨rfl, rfl⟩

/-- C7 (amended): a missing `title`, `username` or `image_url` *blocks*
record creation (the `require_non_empty_str` validator raises); with those
three present, all of `price_usd`, `odometer`, `phone_number`,
`car_number` and `car_vin` may be null — `car_number` is not the single
optional field — and the record is created with nulls there; separately,
`_process_single_listing` skips (never persists) any listing whose phone
number resolves to `None`. -/
theorem c7_required_fields :
    (∀ r : RawListing, r.image_url = .vnone → ∃ e, mkCarListing r = .error e) ∧
    (∀ (url t u img : String) (cnt : Int),
        pyStrip t ≠ "" → pyStrip u ≠ "" → pyStrip img ≠ "" →
        mkCarListing { url := url, title := .vstr t, price_usd := .vnone, odometer := .vnone,
                       username := .vstr u, phone_number := .vnone, image_url := .vstr img,
                       images_count := cnt, car_number := none, car_vin := none }
          = .ok { url := url, title := pyStrip t, price_usd := none, odometer := none,
                  username := pyStrip u, phone_number := none, image_url := pyStrip img,
                  images_count := cnt, car_number := none, car_vin := none }) ∧
    (∀ (env : ListingEnv) (url : String),
        (∀ html, parse_phone_number ((env.parsed html url).phone_number) = .ok none) →
        processSingleListing env url = none) := by
  refine ⟨?_, ?_, ?_⟩
  · intro r h
    unfold mkCarListing
    cases hT : require_non_empty_str "title" r.title with
    | error e => exact ⟨e, rfl⟩
    | ok t =>
      cases hU : require_non_empty_str "username" r.username with
      | error e => exact ⟨e, rfl⟩
      | ok u =>
        rw [h]
        exact ⟨"image_url is required", rfl⟩
  · intro url t u img cnt ht hu himg
    have hT : require_non_empty_str "title" (.vstr t) = .ok (pyStrip t) := by
      simp [require_non_empty_str, pyPrimStr, ht]
    have hU : require_non_empty_str "username" (.vstr u) = .ok (pyStrip u) := by
      simp [require_non_empty_str, pyPrimStr, hu]
    have hI : require_non_empty_str "image_url" (.vstr img) = .ok (pyStrip img) := by
      simp [require_non_empty_str, pyPrimStr, himg]
    unfold mkCarListing
    rw [hT, hU, hI]
    rfl
  · intro env url hphone
    unfold processSingleListing
    split
    · rfl
    · rename_i html hf
      split
      · rfl
      · split
        · rfl
        · rename_i car hmk
          have hcar : car.phone_number = none := by
            have hp := hphone html
            unfold mkCarListing at hmk
            cases hT : require_non_empty_str "title" (env.parsed html url).title with
            | error e => rw [hT] at hmk; simp at hmk
            | ok t =>
              rw [hT] at hmk
              cases hU : require_non_empty_str "username" (env.parsed html url).username with
              | error e => rw [hU] at hmk; simp at hmk
              | ok u =>
                rw [hU] at hmk
                cases hI : require_non_empty_str "image_url" (env.parsed html url).image_url with
                | error e => rw [hI] at hmk; simp at hmk
                | ok i =>
                  rw [hI, hp] at hmk
                  injection hmk with h2
                  rw [← h2]
          by_cases himg : car.image_url = "" <;> simp [himg, hcar]

theorem c7_required_fields_witness :
    (∃ e, mkCarListing rawMissingImage = .error e) ∧
    mkCarListing { url := "u", title := .vstr "Car", price_usd := .vnone, odometer := .vnone,
                   username := .vstr "Олег", phone_number := .vnone, image_url := .vstr "https://i",
                   images_count := 3, car_number := none, car_vin := none }
      = .ok { url := "u", title := pyStrip "Car", price_usd := none, odometer := none,
              username := pyStrip "Олег", phone_number := none, image_url := pyStrip "https://i",
              images_count := 3, car_number := none, car_vin := none } ∧
    processSingleListing noPhoneEnv "https://auto.ria.com/uk/auto/ad_9.html" = none :=
  ⟨c7_required_fields.1 rawMissingImage rfl,
   c7_required_fields.2.1 "u" "Car" "Олег" "https://i" 3 (by decide) (by decide) (by decide),
   c7_required_fields.2.2 noPhoneEnv "https://auto.ria.com/uk/auto/ad_9.html" (fun _ => rfl)⟩

/-- C8: the extraction contract is violated — on a page whose embedded
payload carries a numeric `additionalParams.title`, `parse_listing` raises
(`title.strip()` on an `int`) instead of returning a triple; the
fall-through part of the claim does hold: when the payload scan fails the
extraction proceeds with the payload absent and still returns a triple. -/
theorem c8_extraction_totality :
    parse_listing numericTitleHtml "https://auto.ria.com/uk/auto/ad_1.html"
      = .error "AttributeError: strip" ∧
    extractPiniaPayload "" = none ∧
    parse_listing "" "u" = parseListingWith none "" "u" ∧
    parseListingWith none "" "u" = .ok emptyPageParsed :=
  ⟨rfl, rfl, rfl, rfl⟩

theorem firstStr_ne_empty : ∀ (l : List JVal) (s : String), firstStr l = some s → s ≠ "" := by
  intro l
  induction l with
  | nil => intro s h; simp [firstStr] at h
  | cons v rest ih =>
    intro s h
    cases v with
    | str t =>
      simp only [firstStr] at h
      split_ifs at h with ht
      · injection h with h1; subst h1; exact ht
      · exact ih s h
    | null => exact ih s (by simpa [firstStr] using h)
    | bool b => exact ih s (by simpa [firstStr] using h)
    | num n => exact ih s (by simpa [firstStr] using h)
    | arr xs => exact ih s (by simpa [firstStr] using h)
    | obj kvs => exact ih s (by simpa [firstStr] using h)

theorem phoneId_truthy_iff (pinia : JVal) :
    (optStrToVal (phoneIdOfPayload pinia)).truthy = (phoneIdOfPayload pinia).isSome := by
  cases hp : phoneIdOfPayload pinia with
  | none => rfl
  | some s =>
    have hs : s ≠ "" := firstStr_ne_empty _ s hp
    simp [optStrToVal, JVal.truthy, hs]

/-- C9: secondary-lookup metadata is all-or-nothing — `parse_listing`
returns non-nil `phone_meta` iff all three identifiers (auto id, user id,
phone id) are resolved (truthy); and `_get_phone_number` makes no API call
(and returns no number) when any of its three identifiers is missing. -/
theorem c9_phone_meta_all_or_nothing :
    (∀ (piniaOpt : Option JVal) (html url : String) (res : ParsedListing),
        parseListingWith piniaOpt html url = .ok res →
        (res.phoneMeta.isSome ↔
          ((autoIdOfPayload (piniaNorm piniaOpt)).truthy = true ∧
           (userIdOfPayload (piniaNorm piniaOpt)).truthy = true ∧
           (phoneIdOfPayload (piniaNorm piniaOpt)).isSome = true))) ∧
    (∀ (html url : String) (api : Option PhoneApiResp),
        ((scanUserId html).isNone ∨ (scanPhoneId html).isNone ∨ (scanAutoId url).isNone) →
        getPhoneNumberModel html url api = (false, none)) := by
  constructor
  · intro piniaOpt html url res hok
    unfold parseListingWith at hok
    cases hT : resolveTitle (piniaNorm piniaOpt) (parse_title html) with
    | error e => rw [hT] at hok; simp at hok
    | ok title =>
      rw [hT] at hok
      cases hU : resolveUsername (piniaNorm piniaOpt) (parse_meta_description html) with
      | error e => rw [hU] at hok; simp at hok
      | ok username =>
        rw [hU] at hok
        cases hI : resolveImageUrl (piniaNorm piniaOpt) (parse_og_image html) with
        | error e => rw [hI] at hok; simp at hok
        | ok image_url =>
          rw [hI] at hok
          injection hok with h1
          rw [← h1]
          show (phoneMetaOf (piniaNorm piniaOpt) title username).isSome ↔ _
          unfold phoneMetaOf
          rw [phoneId_truthy_iff]
          split_ifs with hcond
          · simp only [Option.isSome_some, true_iff]
            simp only [Bool.and_eq_true] at hcond
            exact ⟨hcond.1.1, hcond.1.2, hcond.2⟩
          · simp only [Option.isSome_none, Bool.false_eq_true, false_iff]
            intro ⟨ha, hu, hp⟩
            exact hcond (by simp [ha, hu, hp])
  · intro html url api h
    have hb : ((scanUserId html).isNone || (scanPhoneId html).isNone || (scanAutoId url).isNone) = true := by
      rcases h with h | h | h <;> simp [h]
    unfold getPhoneNumberModel
    simp only [hb, if_true]

theorem c9_phone_meta_all_or_nothing_witness :
    (emptyPageParsed.phoneMeta.isSome ↔
      ((autoIdOfPayload (piniaNorm none)).truthy = true ∧
       (userIdOfPayload (piniaNorm none)).truthy = true ∧
       (phoneIdOfPayload (piniaNorm none)).isSome = true)) ∧
    getPhoneNumberModel "" "" none = (false, none) :=
  ⟨c9_phone_meta_all_or_nothing.1 none "" "u" emptyPageParsed rfl,
   c9_phone_meta_all_or_nothing.2 "" "" none (Or.inl rfl)⟩
